import Mathlib
/-!
Verification development for the fitness-copilot backend's Brain /
conversation-to-action decision engine, its context snapshot builder, the
chat confirm endpoint and the LLM provider's retry loop.

The Python sources are shallowly embedded: pure functions become Lean
functions, dict-shaped payloads become association lists of a Python value
type, machine floats become `Rat`, and the external LLM / vision calls are
parameters (the awaited result of the call), so each code path is a total
function of the message, the user context and those call results.
-/

/-- A Python value as it occurs in the action-data dicts of the chat
service: `None`, booleans, ints, floats (as rationals), strings, lists and
nested dicts. -/
inductive PyVal where
  | vNone
  | vBool (b : Bool)
  | vInt (n : Int)
  | vRat (q : Rat)
  | vStr (s : String)
  | vList (xs : List PyVal)
  | vDict (entries : List (String × PyVal))

/-- A Python dict with string keys, as an association list (keys unique,
insertion ordered). -/
abbrev PyDict := List (String × PyVal)

/-- `d.get(k)` – first binding of `k`, or `None`-as-`Option.none`. -/
def dget (d : PyDict) (k : String) : Option PyVal :=
  (d.find? (fun p => p.1 == k)).map (fun p => p.2)

/-- Python truthiness of a value. -/
def pyTruthy : PyVal → Bool
  | .vNone => false
  | .vBool b => b
  | .vInt n => n != 0
  | .vRat q => q != 0
  | .vStr s => s != ""
  | .vList xs => !xs.isEmpty
  | .vDict d => !d.isEmpty

/-- Truthiness of `d.get(k)` (absent key is `None`, hence falsy). -/
def dgetTruthy (d : PyDict) (k : String) : Bool :=
  match dget d k with
  | some v => pyTruthy v
  | none => false

/-- `d.get(k, default)`. -/
def dgetD (d : PyDict) (k : String) (default : PyVal) : PyVal :=
  (dget d k).getD default

/-- Remove a key (`d.pop(k, None)` for unique-keyed dicts). -/
def dpop (d : PyDict) (k : String) : PyDict :=
  d.filter (fun p => p.1 != k)

/-- `d[k] = v`: replace the value in place if the key exists, else append. -/
def dset (d : PyDict) (k : String) (v : PyVal) : PyDict :=
  if d.any (fun p => p.1 == k) then
    d.map (fun p => if p.1 == k then (p.1, v) else p)
  else
    d ++ [(k, v)]

/-- The 26 ASCII upper/lower case pairs. -/
def asciiUpperLower : List (Char × Char) :=
  [('A','a'),('B','b'),('C','c'),('D','d'),('E','e'),('F','f'),('G','g'),
   ('H','h'),('I','i'),('J','j'),('K','k'),('L','l'),('M','m'),('N','n'),
   ('O','o'),('P','p'),('Q','q'),('R','r'),('S','s'),('T','t'),('U','u'),
   ('V','v'),('W','w'),('X','x'),('Y','y'),('Z','z')]

/-- ASCII lower-casing of one character, as Python `str.lower` acts on the
ASCII range (all lexicon entries and trigger words are ASCII). -/
def pyToLower (c : Char) : Char :=
  match asciiUpperLower.find? (fun p => p.1 == c) with
  | some p => p.2
  | none => c

/-- `s.lower()` (ASCII range). -/
def lowerStr (s : String) : String :=
  ⟨s.data.map pyToLower⟩

/-- Whitespace characters of Python's `\s` class / `str.strip`. -/
def pyIsSpace (c : Char) : Bool :=
  c = ' ' || c = '\t' || c = '\n' || c = '\r' || c = '\x0b' || c = '\x0c'

/-- `s.strip()`. -/
def pyStrip (s : String) : String :=
  ⟨((s.data.dropWhile pyIsSpace).reverse.dropWhile pyIsSpace).reverse⟩

/-- Python's `needle in haystack` substring test, on character lists:
some suffix of the haystack starts with the needle. -/
def containsSubList (needle : List Char) : List Char → Bool
  | [] => needle.isEmpty
  | c :: rest => needle.isPrefixOf (c :: rest) || containsSubList needle rest

/-- Python's `needle in haystack` on strings. -/
def strContains (haystack needle : String) : Bool :=
  containsSubList needle.data haystack.data

/-- `s.title()`: an alphabetic character is upper-cased when the previous
character is not alphabetic, lower-cased otherwise (ASCII range). -/
def pyTitleAux : Bool → List Char → List Char
  | _, [] => []
  | prevAlpha, c :: rest =>
    (if c.isAlpha then (if prevAlpha then pyToLower c else c.toUpper) else c)
      :: pyTitleAux c.isAlpha rest

/-- `s.title()` (ASCII range). -/
def pyTitle (s : String) : String :=
  ⟨pyTitleAux false s.data⟩

/-- `int(q)` – truncation toward zero of `(a / b) * 100`-style floats. -/
def pyIntOfRat (q : Rat) : Int :=
  if q < 0 then q.ceil else q.floor

/-- The apostrophe character, for user-facing message texts. -/
def apos : String := "\x27"

/-- Python's `sorted(xs, key=key, reverse=True)`: a stable sort, largest
key first, ties in original order (insertion sort under the relation
"my key is at least yours"). -/
def pySortByKeyDesc {α : Type} (key : α → Nat) (l : List α) : List α :=
  List.insertionSort (fun a b => key b ≤ key a) l

/-- `FoodMacros` of `brain.py`: nutritional information for a food item
(`calories : int`, the gram fields `float`, embedded as `Rat`). -/
structure FoodMacros where
  calories : Int
  protein : Rat
  carbs : Rat
  fat : Rat
  deriving DecidableEq, Repr

/-- `BrainService.FOOD_DB` of `brain.py`, in dict insertion order. -/
def foodDB : List (String × FoodMacros) :=
  [ ("grilled chicken salad", ⟨450, 42, 18, 22⟩),
    ("chicken salad", ⟨450, 42, 18, 22⟩),
    ("oatmeal with berries", ⟨320, 12, 52, 8⟩),
    ("oatmeal", ⟨320, 12, 52, 8⟩),
    ("eggs and avocado toast", ⟨480, 22, 35, 28⟩),
    ("avocado toast", ⟨480, 22, 35, 28⟩),
    ("rice and grilled chicken", ⟨550, 45, 55, 12⟩),
    ("rice and chicken", ⟨550, 45, 55, 12⟩),
    ("protein shake", ⟨200, 30, 10, 4⟩),
    ("shake", ⟨200, 30, 10, 4⟩),
    ("banana", ⟨105, (13 : Rat)/10, 27, (4 : Rat)/10⟩),
    ("chicken", ⟨165, 31, 0, (36 : Rat)/10⟩),
    ("rice", ⟨206, (43 : Rat)/10, 45, (4 : Rat)/10⟩),
    ("eggs", ⟨155, 13, (11 : Rat)/10, 11⟩),
    ("oats", ⟨150, 5, 27, 3⟩),
    ("salmon", ⟨208, 20, 0, 13⟩),
    ("broccoli", ⟨55, (37 : Rat)/10, 11, (6 : Rat)/10⟩),
    ("apple", ⟨95, (5 : Rat)/10, 25, (3 : Rat)/10⟩),
    ("bread", ⟨79, (27 : Rat)/10, 15, 1⟩),
    ("milk", ⟨149, 8, 12, 8⟩) ]

/-- The known food names (the keys of `FOOD_DB`). -/
def foodNames : List String := foodDB.map (fun p => p.1)

/-- `BrainService.FOOD_KEYWORDS`: trigger words for the food path. -/
def foodKeywords : List String :=
  ["ate", "eaten", "had", "breakfast", "lunch", "dinner", "snack",
   "eating", "eat"]

/-- `BrainService.EXERCISE_MAP` of `brain.py` (matchable phrase →
canonical exercise name), in dict insertion order. -/
def exerciseMap : List (String × String) :=
  [ ("incline dumbbell press", "Incline Dumbbell Press"),
    ("incline bench press", "Incline Bench Press"),
    ("flat bench press", "Bench Press"),
    ("bench press", "Bench Press"),
    ("dumbbell press", "Dumbbell Press"),
    ("incline press", "Incline Dumbbell Press"),
    ("bench", "Bench Press"),
    ("barbell squat", "Barbell Squat"),
    ("squat", "Barbell Squat"),
    ("romanian deadlift", "Romanian Deadlift"),
    ("rdl", "Romanian Deadlift"),
    ("deadlift", "Deadlift"),
    ("overhead press", "Overhead Press"),
    ("shoulder press", "Overhead Press"),
    ("military press", "Overhead Press"),
    ("leg press", "Leg Press"),
    ("legpress", "Leg Press"),
    ("press", "Overhead Press"),
    ("barbell row", "Barbell Row"),
    ("row", "Barbell Row"),
    ("bicep curl", "Bicep Curl"),
    ("curl", "Bicep Curl"),
    ("pullup", "Pull-up"),
    ("pull-up", "Pull-up"),
    ("pull up", "Pull-up"),
    ("lat pulldown", "Lat Pulldown"),
    ("pulldown", "Lat Pulldown"),
    ("dip", "Dips"),
    ("dips", "Dips"),
    ("lunge", "Lunges"),
    ("lunges", "Lunges"),
    ("calf raise", "Calf Raises"),
    ("calf", "Calf Raises") ]

/-- `BrainService.EXERCISE_KEYWORDS`: trigger words for the exercise path. -/
def exerciseKeywords : List String :=
  ["bench", "squat", "deadlift", "press", "row", "curl", "sets", "reps",
   "kg", "lbs", "pullup", "pull-up", "pull up", "pulldown", "dip", "dips",
   "leg press", "legpress", "lunge", "lunges", "calf", "rdl", "romanian",
   "incline", "dumbbell", "barbell", "military", "shoulder", "overhead"]

/-- `sorted(self.FOOD_DB.keys(), key=len, reverse=True)` of `_parse_food`,
paired with the dict values (keys are unique, so sorting the pairs by key
length equals sorting the keys and indexing the dict). -/
def sortedFoodPairs : List (String × FoodMacros) :=
  pySortByKeyDesc (fun p => p.1.length) foodDB

/-- `sorted(self.EXERCISE_MAP.keys(), key=len, reverse=True)` of
`_parse_exercise`, paired with the mapped canonical names. -/
def sortedExercisePairs : List (String × String) :=
  pySortByKeyDesc (fun p => p.1.length) exerciseMap

/-- `ChatActionType` of `models.py`. -/
inductive ChatActionType where
  | logFood
  | logExercise
  | proposeFood
  | proposeExercise
  | reset
  | noneAction
  deriving DecidableEq, Repr

/-- `ChatAttachmentType` of `models.py` (`NONE` is `noneAttachment`). -/
inductive ChatAttachmentType where
  | image
  | audio
  | noneAttachment
  deriving DecidableEq, Repr

/-- `BrainResponse` of `brain.py`. -/
structure BrainResponse where
  content : String
  actionType : ChatActionType
  actionData : Option PyDict := none

/-- The slice of `UserContext` (`context.py`) consumed by the brain's text
paths: daily calorie progress, the workouts-completed count and the names
of today's scheduled exercises (the brain reads each scheduled entry only
through `ex.get("name", "")`). -/
structure BrainCtx where
  caloriesConsumed : Int
  caloriesTarget : Int
  workoutsCompleted : Int
  scheduledExercises : List String

/-- `BrainService._has_food_keywords`: the lowered content contains a food
trigger word or a known food name. -/
def hasFoodKeywords (content : String) : Bool :=
  foodKeywords.any (fun k => strContains (lowerStr content) k)
    || foodNames.any (fun f => strContains (lowerStr content) f)

/-- `BrainService._has_exercise_keywords`. -/
def hasExerciseKeywords (content : String) : Bool :=
  exerciseKeywords.any (fun k => strContains (lowerStr content) k)

/-- `BrainService._build_food_progress_message`. The embedding collapses
`user_id is None` and `self._build_context(...) is None` into `ctx = none`
(both return the empty string). -/
def buildFoodProgressMessage (ctx : Option BrainCtx) (newCalories : Int)
    (_newProtein : Rat) : String :=
  match ctx with
  | none => ""
  | some c =>
    let newCalTotal := c.caloriesConsumed + newCalories
    let calPct : Int :=
      if c.caloriesTarget > 0 then
        pyIntOfRat (((newCalTotal : Rat) / (c.caloriesTarget : Rat)) * 100)
      else 0
    let calRemaining := c.caloriesTarget - newCalTotal
    if calRemaining > 0 then
      "\n\n📊 You" ++ apos ++ "re at " ++ toString calPct ++
        "% of your calorie target (" ++ toString calRemaining ++
        " kcal remaining)"
    else
      "\n\n📊 You" ++ apos ++ "ve reached " ++ toString calPct ++
        "% of your calorie target"

/-- `BrainService._build_exercise_progress_message`. -/
def buildExerciseProgressMessage (ctx : Option BrainCtx)
    (exerciseName : String) : String :=
  match ctx with
  | none => ""
  | some c =>
    let inPlan :=
      c.scheduledExercises.any (fun n => lowerStr n == lowerStr exerciseName)
    let totalScheduled : Int := c.scheduledExercises.length
    let completed := c.workoutsCompleted + 1
    if inPlan && totalScheduled > 0 then
      let remaining := totalScheduled - completed
      if remaining > 0 then
        "\n\n🎯 Part of today" ++ apos ++ "s plan! " ++ toString remaining ++
          " exercises remaining"
      else
        "\n\n🎯 Part of today" ++ apos ++
          "s plan! Great job completing your workout!"
    else if !c.scheduledExercises.isEmpty then
      "\n\n💡 Extra work! Today" ++ apos ++ "s plan has " ++
        toString totalScheduled ++ " scheduled exercises"
    else ""

/-- `BrainService._parse_food`: scan the known foods longest-name-first and
return a `LOG_FOOD` response for the first name contained in the lowered
content; `none` when no known food matches. -/
def parseFood (ctx : Option BrainCtx) (content : String) :
    Option BrainResponse :=
  match sortedFoodPairs.find? (fun p => strContains (lowerStr content) p.1) with
  | none => none
  | some (foodName, macros) =>
    let progressMsg := buildFoodProgressMessage ctx macros.calories macros.protein
    some
      { content := "✅ Logged " ++ foodName ++ ": " ++
          toString macros.calories ++ " kcal, " ++ toString macros.protein ++
          "g protein" ++ progressMsg
        actionType := .logFood
        actionData := some
          [ ("food", .vStr foodName),
            ("meal_name", .vStr (pyTitle foodName)),
            ("meal_type", .vStr "snack"),
            ("calories", .vInt macros.calories),
            ("protein_g", .vRat macros.protein),
            ("carbs_g", .vRat macros.carbs),
            ("fat_g", .vRat macros.fat) ] }

/-- Numeric value of a digit run (`int` of the matched group). -/
def natOfDigits (ds : List Char) : Nat :=
  ds.foldl (fun n c => 10 * n + (c.toNat - '0'.toNat)) 0

/-- Match of the regex `(\d+)\s*(?:sets?|x)` at the start of `cs`: a
maximal nonempty digit run, optional whitespace, then `set` (covering
`sets`) or `x`.  Backtracking into the digit run cannot help (the next
character would be a digit, matching neither alternative), so maximal
munch is exact. -/
def matchSetsAt (cs : List Char) : Option Nat :=
  let ds := cs.takeWhile Char.isDigit
  if ds.isEmpty then none
  else
    let rest := (cs.drop ds.length).dropWhile pyIsSpace
    if "set".data.isPrefixOf rest || "x".data.isPrefixOf rest then
      some (natOfDigits ds)
    else none

/-- Match of the regex `(?:x|for)\s*(\d+)(?:\s*reps?)?` at the start of
`cs`: `x` or `for`, optional whitespace, then a maximal nonempty digit run
(the trailing optional `reps` group affects neither success nor the
captured number).  `matchRepsNumberAfter` is the part after the keyword:
optional whitespace then the captured digit run. -/
def matchRepsNumberAfter (rest : List Char) : Option Nat :=
  let ds := (rest.dropWhile pyIsSpace).takeWhile Char.isDigit
  if ds.isEmpty then none else some (natOfDigits ds)

/-- Match of `(?:x|for)\s*(\d+)(?:\s*reps?)?` at the start of `cs` (see
`matchRepsNumberAfter`). -/
def matchRepsPrimaryAt (cs : List Char) : Option Nat :=
  if "x".data.isPrefixOf cs then matchRepsNumberAfter (cs.drop 1)
  else if "for".data.isPrefixOf cs then matchRepsNumberAfter (cs.drop 3)
  else none

/-- Match of the regex `(\d+)\s*reps?` at the start of `cs`. -/
def matchRepsAltAt (cs : List Char) : Option Nat :=
  let ds := cs.takeWhile Char.isDigit
  if ds.isEmpty then none
  else
    let rest := (cs.drop ds.length).dropWhile pyIsSpace
    if "rep".data.isPrefixOf rest then some (natOfDigits ds) else none

/-- Match of the number part `\d+(?:\.\d+)?` at the start of `cs`: the
captured value and the number of characters consumed.  `none` when `cs`
does not start with a digit. -/
def matchNumberAt (cs : List Char) : Option (Rat × Nat) :=
  let ds := cs.takeWhile Char.isDigit
  if ds.isEmpty then none
  else
    let intVal : Rat := (natOfDigits ds : Nat)
    let rest := cs.drop ds.length
    match rest with
    | '.' :: after =>
      let fs := after.takeWhile Char.isDigit
      if fs.isEmpty then some (intVal, ds.length)
      else
        some (intVal + (natOfDigits fs : Rat) / ((10 : Rat) ^ fs.length),
              ds.length + 1 + fs.length)
    | _ => some (intVal, ds.length)

/-- Match of `(\d+(?:\.\d+)?)\s*(?:kg|kilos?)` at the start of `cs`.  When
a fractional part is present, dropping it cannot recover a match (the
suffix would have to start at the dot), so maximal munch is exact. -/
def matchWeightKgAt (cs : List Char) : Option Rat :=
  match matchNumberAt cs with
  | none => none
  | some (v, len) =>
    let rest := (cs.drop len).dropWhile pyIsSpace
    if "kg".data.isPrefixOf rest || "kilo".data.isPrefixOf rest then some v
    else none

/-- Match of `(\d+(?:\.\d+)?)\s*(?:lbs?|pounds?)` at the start of `cs`. -/
def matchWeightLbsAt (cs : List Char) : Option Rat :=
  match matchNumberAt cs with
  | none => none
  | some (v, len) =>
    let rest := (cs.drop len).dropWhile pyIsSpace
    if "lb".data.isPrefixOf rest || "pound".data.isPrefixOf rest then some v
    else none

/-- `re.search`: try the pattern at every position left to right. -/
def pySearch {α : Type} (matchAt : List Char → Option α) :
    List Char → Option α
  | [] => matchAt []
  | c :: rest =>
    match matchAt (c :: rest) with
    | some v => some v
    | none => pySearch matchAt rest

/-- `BrainService._extract_exercise_values`: sets, reps, weight (kg) from
the lowered content, with defaults `(3, 10, 0.0)` and the pound-to-kilogram
factor `0.453592`. -/
def extractExerciseValues (content : String) : Int × Int × Rat :=
  let lower := (lowerStr content).data
  let sets : Int :=
    match pySearch matchSetsAt lower with
    | some n => (n : Int)
    | none => 3
  let reps : Int :=
    match pySearch matchRepsPrimaryAt lower with
    | some n => (n : Int)
    | none =>
      match pySearch matchRepsAltAt lower with
      | some n => (n : Int)
      | none => 10
  let weight : Rat :=
    match pySearch matchWeightKgAt lower with
    | some v => v
    | none =>
      match pySearch matchWeightLbsAt lower with
      | some v => v * ((453592 : Rat) / 1000000)
      | none => 0
  (sets, reps, weight)

/-- `BrainService._parse_exercise` (the sync keyword fallback): scan the
exercise aliases longest-phrase-first, and on a hit log the mapped
canonical exercise with the extracted numeric values. -/
def parseExercise (ctx : Option BrainCtx) (content : String) :
    Option BrainResponse :=
  match sortedExercisePairs.find?
      (fun p => strContains (lowerStr content) p.1) with
  | none => none
  | some (_, exerciseName) =>
    let v := extractExerciseValues content
    let sets := v.1
    let reps := v.2.1
    let weight := v.2.2
    let progressMsg := buildExerciseProgressMessage ctx exerciseName
    let weightStr :=
      if weight > 0 then " @ " ++ toString weight ++ "kg" else ""
    some
      { content := "💪 Logged " ++ exerciseName ++ ": " ++ toString sets ++
          "x" ++ toString reps ++ weightStr ++ progressMsg
        actionType := .logExercise
        actionData := some
          [ ("exercise_name", .vStr exerciseName),
            ("sets", .vInt sets),
            ("reps", .vInt reps),
            ("weight_kg", .vRat weight) ] }

/-- The structured fields the LLM's JSON object yields in
`_parse_exercise_with_llm`: `data.get("exercise_name")` (absent or JSON
`null` become `none`, and the empty string is equally falsy in the source),
and the optional numeric fields read via `data.get("sets", 1)`,
`data.get("reps", 10)`, `data.get("weight_kg", 0)`. -/
structure ExerciseExtraction where
  exerciseName : Option String
  sets : Option Int := none
  reps : Option Int := none
  weightKg : Option Rat := none

/-- Outcome of the awaited `self.llm.generate(...)` call (plus the JSON
recovery steps) inside `_parse_exercise_with_llm`:
* `returnedNone` — the call returned a falsy response;
* `noJsonObject` — `re.search` found no brace-delimited object;
* `parsed d` — a JSON object was parsed into `d`;
* `raised` — the call (or `json.loads` / a numeric conversion) raised. -/
inductive ExerciseLLMOutcome where
  | returnedNone
  | noJsonObject
  | parsed (d : ExerciseExtraction)
  | raised

/-- Outcome of the awaited `self.llm.generate(...)` call inside
`_llm_response`. -/
inductive GeneralLLMOutcome where
  | returned (s : Option String)
  | raised

/-- `ImageCategory` of `vision.py`. -/
inductive ImageCategory where
  | gymEquipment
  | food
  | unknown
  deriving DecidableEq, Repr

/-- `GymEquipmentAnalysis` of `vision.py`. -/
structure GymEquipmentAnalysis where
  exerciseName : String
  formCues : List String
  suggestedSets : Int
  suggestedReps : Int
  suggestedWeightKg : Rat
  inTodaysPlan : Bool := false
  goalSpecificAdvice : String := ""

/-- `FoodAnalysis` of `vision.py`. -/
structure FoodAnalysis where
  mealName : String
  calories : Int
  proteinG : Rat
  carbsG : Rat
  fatG : Rat
  goalSpecificAdvice : String := ""

/-- `VisionResult` of `vision.py`: the awaited result of
`self.vision.analyze_image(...)`. -/
structure VisionResult where
  category : ImageCategory
  gymAnalysis : Option GymEquipmentAnalysis := none
  foodAnalysis : Option FoodAnalysis := none
  errorMessage : Option String := none

/-- Truthiness of an optional string (`None` and `""` are falsy). -/
def optStrTruthy : Option String → Bool
  | none => false
  | some s => s != ""

/-- The environment of one `process_message_async` call: whether an LLM
provider is configured (`self.llm`), the built user context (`none` when
there is no user id or no session), and the awaited results of the three
external calls a single message can reach. -/
structure BrainEnv where
  llmAvailable : Bool
  ctx : Option BrainCtx
  vision : VisionResult
  exerciseLLM : ExerciseLLMOutcome
  generalLLM : GeneralLLMOutcome

/-- `BrainService._handle_reset`. -/
def handleReset : BrainResponse :=
  { content := "🔄 Reset complete! All of today" ++ apos ++
      "s food and exercise logs have been cleared."
    actionType := .reset
    actionData := none }

/-- `BrainService._handle_audio_attachment`. -/
def handleAudioAttachment : BrainResponse :=
  { content := "I heard your voice note! For now, type what you said and I" ++
      apos ++ "ll log it."
    actionType := .noneAction
    actionData := none }

/-- `BrainService._general_response`. -/
def generalResponse : BrainResponse :=
  { content := "I can help you log food and exercises! Try:\n" ++
      "• " ++ apos ++ "I ate a banana" ++ apos ++ " - to log food\n" ++
      "• " ++ apos ++ "Did 3 sets of bench at 60kg" ++ apos ++
      " - to log exercise\n" ++
      "• " ++ apos ++ "reset" ++ apos ++ " - to clear today" ++ apos ++ "s logs"
    actionType := .noneAction
    actionData := none }

/-- `BrainService._handle_image_attachment`: error message first, then the
gym-equipment and food branches (`PROPOSE_*` with `isTracked = False`),
then the fallback `NONE` reply. -/
def handleImageAttachment (r : VisionResult) : BrainResponse :=
  if optStrTruthy r.errorMessage then
    { content := r.errorMessage.getD ""
      actionType := .noneAction
      actionData := none }
  else
    match r.category, r.gymAnalysis with
    | .gymEquipment, some ga =>
      let weightStr :=
        if ga.suggestedWeightKg > 0 then
          " @ " ++ toString ga.suggestedWeightKg ++ "kg"
        else ""
      let advice :=
        if ga.goalSpecificAdvice != "" then
          "\n\n💡 " ++ ga.goalSpecificAdvice
        else ""
      let planNote := if ga.inTodaysPlan then " (from today" ++ apos ++ "s plan)" else ""
      { content := "🏋️ " ++ ga.exerciseName ++ planNote ++
          "\n\n💪 Suggested: " ++ toString ga.suggestedSets ++ "x" ++
          toString ga.suggestedReps ++ weightStr ++ advice ++
          "\n\nClick " ++ apos ++ "Add to Track" ++ apos ++
          " to log this exercise."
        actionType := .proposeExercise
        actionData := some
          [ ("isTracked", .vBool false),
            ("exercise_name", .vStr ga.exerciseName),
            ("sets", .vInt ga.suggestedSets),
            ("reps", .vInt ga.suggestedReps),
            ("weight_kg", .vRat ga.suggestedWeightKg),
            ("hiddenContext",
              .vDict [("formCues", .vList (ga.formCues.map .vStr))]) ] }
    | cat, _ =>
      match cat, r.foodAnalysis with
      | .food, some fa =>
        let advice :=
          if fa.goalSpecificAdvice != "" then
            "\n\n💡 " ++ fa.goalSpecificAdvice
          else ""
        { content := "🍽️ " ++ fa.mealName ++ "\n\n📊 " ++
            toString fa.calories ++ " kcal | " ++ toString fa.proteinG ++
            "g protein | " ++ toString fa.carbsG ++ "g carbs | " ++
            toString fa.fatG ++ "g fat" ++ advice ++
            "\n\nClick " ++ apos ++ "Add to Track" ++ apos ++
            " to log this meal."
          actionType := .proposeFood
          actionData := some
            [ ("isTracked", .vBool false),
              ("meal_name", .vStr fa.mealName),
              ("meal_type", .vStr "snack"),
              ("calories", .vInt fa.calories),
              ("protein_g", .vRat fa.proteinG),
              ("carbs_g", .vRat fa.carbsG),
              ("fat_g", .vRat fa.fatG) ] }
      | _, _ =>
        { content :=
            match r.errorMessage with
            | some s =>
              if s != "" then s
              else "I couldn" ++ apos ++ "t analyze this image. " ++
                "Please describe what you" ++ apos ++ "re showing me."
            | none =>
              "I couldn" ++ apos ++ "t analyze this image. " ++
                "Please describe what you" ++ apos ++ "re showing me."
          actionType := .noneAction
          actionData := none }

/-- The `scheduled_names` list of `_parse_exercise_with_llm`:
`context.scheduled_exercises if context else []`, read through
`ex.get("name", "")`. -/
def scheduledNamesOf (env : BrainEnv) : List String :=
  match env.ctx with
  | some c => c.scheduledExercises
  | none => []

/-- `BrainService._parse_exercise_with_llm`: with no provider or on any
degraded LLM outcome fall back to the sync keyword matcher; a parsed
object with a falsy exercise name means "not an exercise log" (`none`);
otherwise validate the name case-insensitively against today's schedule
and either refuse with a plan/rest-day `NONE` reply or log it. -/
def parseExerciseWithLLM (env : BrainEnv) (content : String) :
    Option BrainResponse :=
  if !env.llmAvailable then parseExercise env.ctx content
  else
    let scheduledNames : List String := scheduledNamesOf env
    match env.exerciseLLM with
    | .returnedNone => parseExercise env.ctx content
    | .noJsonObject => parseExercise env.ctx content
    | .raised => parseExercise env.ctx content
    | .parsed d =>
      match d.exerciseName with
      | none => none
      | some exerciseName =>
        if exerciseName = "" then none
        else
          let sets := d.sets.getD 1
          let reps := d.reps.getD 10
          let weight := d.weightKg.getD 0
          let isScheduled :=
            scheduledNames.any
              (fun n => lowerStr n == lowerStr exerciseName)
          if !isScheduled then
            if !scheduledNames.isEmpty then
              some
                { content := "❌ " ++ exerciseName ++ " is not in today" ++
                    apos ++ "s workout plan.\n\nToday" ++ apos ++
                    "s exercises: " ++ String.intercalate ", " scheduledNames
                  actionType := .noneAction
                  actionData := none }
            else
              some
                { content := "❌ Today is a rest day - no exercises scheduled!"
                  actionType := .noneAction
                  actionData := none }
          else
            let progressMsg := buildExerciseProgressMessage env.ctx exerciseName
            let weightStr :=
              if weight > 0 then " @ " ++ toString weight ++ "kg" else ""
            some
              { content := "💪 Logged " ++ exerciseName ++ ": " ++
                  toString sets ++ "x" ++ toString reps ++ weightStr ++
                  progressMsg
                actionType := .logExercise
                actionData := some
                  [ ("exercise_name", .vStr exerciseName),
                    ("sets", .vInt sets),
                    ("reps", .vInt reps),
                    ("weight_kg", .vRat weight) ] }

/-- `BrainService._llm_response`: with no provider, a falsy reply or an
exception return the canned `_general_response`; otherwise a `NONE` reply
with the stripped text. -/
def llmResponse (env : BrainEnv) : BrainResponse :=
  if !env.llmAvailable then generalResponse
  else
    match env.generalLLM with
    | .raised => generalResponse
    | .returned none => generalResponse
    | .returned (some s) =>
      if s = "" then generalResponse
      else
        { content := pyStrip s
          actionType := .noneAction
          actionData := none }

/-- `BrainService.process_message_async`: audio, then image, then the
`"reset"` substring check, then the food path (gated by
`_has_food_keywords`), then the exercise path (gated by
`_has_exercise_keywords`), then the general LLM reply. -/
def processMessageAsync (env : BrainEnv)
    (attachmentType : ChatAttachmentType) (content : String) :
    BrainResponse :=
  if attachmentType = .audio then handleAudioAttachment
  else if attachmentType = .image then handleImageAttachment env.vision
  else if strContains (lowerStr content) "reset" then handleReset
  else
    let foodResponse :=
      if hasFoodKeywords content then parseFood env.ctx content else none
    match foodResponse with
    | some r => r
    | none =>
      let exerciseResponse :=
        if hasExerciseKeywords content then parseExerciseWithLLM env content
        else none
      match exerciseResponse with
      | some r => r
      | none => llmResponse env

/-- `ChatMessageRole` of `models.py`. -/
inductive ChatMessageRole where
  | user
  | assistant
  deriving DecidableEq, Repr

/-- `role.value` of the enum. -/
def roleValue : ChatMessageRole → String
  | .user => "user"
  | .assistant => "assistant"

/-- The fields of a stored `chat_message` row read by `get_chat_messages`
and `_build_chat_history` (`created_at` as an abstract timestamp). -/
structure ChatMsgRow where
  userId : Nat
  role : ChatMessageRole
  content : String
  createdAt : Nat
  deriving DecidableEq, Repr

/-- `MAX_CHAT_HISTORY` of `context.py`. -/
def maxChatHistory : Nat := 10

/-- `MAX_CHAT_HISTORY_CHARS` of `context.py`. -/
def maxChatHistoryChars : Nat := 10000

/-- Stable insertion for the ascending `ORDER BY created_at` sort. -/
def insertByCreatedAt (x : ChatMsgRow) : List ChatMsgRow → List ChatMsgRow
  | [] => [x]
  | y :: ys =>
    if x.createdAt ≤ y.createdAt then x :: y :: ys
    else y :: insertByCreatedAt x ys

/-- `ORDER BY created_at ASC` over the stored rows (stable). -/
def sortByCreatedAsc (l : List ChatMsgRow) : List ChatMsgRow :=
  l.foldr insertByCreatedAt []

/-- `get_chat_messages` of `crud_chat.py`: the user's rows ordered by
`created_at` ascending, limited to `limit` — i.e. the FIRST `limit` rows
of the ascending order. -/
def getChatMessages (rows : List ChatMsgRow) (uid : Nat) (limit : Nat) :
    List ChatMsgRow :=
  (sortByCreatedAsc (rows.filter (fun m => m.userId == uid))).take limit

/-- The accumulation loop of `ContextBuilder._build_chat_history`: walk the
fetched rows in order, keep only role and text content, and `break` before
any message whose length would push the running character total over
`MAX_CHAT_HISTORY_CHARS`. -/
def chatHistoryAux : List ChatMsgRow → Nat → List (String × String)
  | [], _ => []
  | m :: rest, totalChars =>
    let content := m.content
    if totalChars + content.length > maxChatHistoryChars then []
    else (roleValue m.role, content) :: chatHistoryAux rest (totalChars + content.length)

/-- `ContextBuilder._build_chat_history`: fetch with
`limit=MAX_CHAT_HISTORY` and accumulate under the character budget. -/
def buildChatHistory (rows : List ChatMsgRow) (uid : Nat) :
    List (String × String) :=
  chatHistoryAux (getChatMessages rows uid maxChatHistory) 0

/-- The fields of a stored `ChatMessage` used by `confirm_tracking`
(`chat.py`), with ids as abstract naturals. -/
structure ChatStoredMessage where
  id : Nat
  userId : Nat
  role : ChatMessageRole
  content : String
  actionType : ChatActionType
  actionData : Option PyDict
  attachmentType : ChatAttachmentType := .noneAttachment
  attachmentUrl : Option String := none

/-- A `meal_log` row as produced by `create_meal_log` from a propose
payload (field values kept as the Python values copied out of the dict). -/
structure MealLogRow where
  userId : Nat
  mealName : PyVal
  mealType : PyVal
  calories : PyVal
  proteinG : PyVal
  carbsG : PyVal
  fatG : PyVal
  simulatedDay : Int

/-- An `exercise_log` row as produced by `create_exercise_log`. -/
structure ExerciseLogRow where
  userId : Nat
  exerciseName : PyVal
  sets : PyVal
  reps : PyVal
  weightKg : PyVal
  simulatedDay : Int

/-- The persistent state `confirm_tracking` reads and writes: the chat
messages and the two log tables. -/
structure ChatDb where
  messages : List ChatStoredMessage
  mealLogs : List MealLogRow
  exerciseLogs : List ExerciseLogRow

/-- The `HTTPException` classes `confirm_tracking` can raise (the 400 for
a malformed UUID string is below the abstraction of natural-number ids):
404 for missing/foreign messages, 400 for a non-PROPOSE action, 400 for
an already tracked action. -/
inductive ConfirmError where
  | notFound
  | notTrackable
  | alreadyTracked
  deriving DecidableEq, Repr

/-- `MealLogCreate(...)` built from `message.action_data` with the
source's `.get` defaults, then inserted by `create_meal_log`.  The
simulated-day-aware `create_meal_log` called here is not in the snapshot
(the snapshot's `crud_nutrition.py` predates it); per the spec and the
parallel `create_exercise_log` it inserts exactly one row copying the
payload fields. -/
def mealLogOfData (uid : Nat) (d : PyDict) (simDay : Int) : MealLogRow :=
  { userId := uid
    mealName := dgetD d "meal_name" (.vStr "Unknown")
    mealType := dgetD d "meal_type" (.vStr "snack")
    calories := dgetD d "calories" (.vInt 0)
    proteinG := dgetD d "protein_g" (.vInt 0)
    carbsG := dgetD d "carbs_g" (.vInt 0)
    fatG := dgetD d "fat_g" (.vInt 0)
    simulatedDay := simDay }

/-- `ExerciseLogCreate(...)` built from `message.action_data` with the
source's `.get` defaults, inserted by `create_exercise_log`
(`crud_fitness.py`). -/
def exerciseLogOfData (uid : Nat) (d : PyDict) (simDay : Int) : ExerciseLogRow :=
  { userId := uid
    exerciseName := dgetD d "exercise_name" (.vStr "Unknown")
    sets := dgetD d "sets" (.vInt 0)
    reps := dgetD d "reps" (.vInt 0)
    weightKg := dgetD d "weight_kg" (.vInt 0)
    simulatedDay := simDay }

/-- `confirm_tracking` of `chat.py`: look the message up, check ownership,
check the action is a PROPOSE kind, check it is not already tracked
(truthiness of the dict and of either `isTracked` key casing), create the
corresponding log row when a truthy payload is present, then rewrite the
payload with `is_tracked` popped and `isTracked = True`.  Raising an
`HTTPException` is the `Except.error` branch; it leaves the state
untouched. -/
def confirmTracking (db : ChatDb) (currentUserId : Nat) (simulatedDay : Int)
    (messageId : Nat) : Except ConfirmError (ChatDb × ChatStoredMessage) :=
  match db.messages.find? (fun m => m.id == messageId) with
  | none => .error .notFound
  | some message =>
    if message.userId ≠ currentUserId then .error .notFound
    else if ¬(message.actionType = .proposeFood ∨
              message.actionType = .proposeExercise) then
      .error .notTrackable
    else if (match message.actionData with
             | some d => !d.isEmpty &&
                 (dgetTruthy d "isTracked" || dgetTruthy d "is_tracked")
             | none => false) then
      .error .alreadyTracked
    else
      let newMealLogs :=
        match message.actionType, message.actionData with
        | .proposeFood, some d =>
          if d.isEmpty then db.mealLogs
          else db.mealLogs ++ [mealLogOfData currentUserId d simulatedDay]
        | _, _ => db.mealLogs
      let newExerciseLogs :=
        match message.actionType, message.actionData with
        | .proposeExercise, some d =>
          if d.isEmpty then db.exerciseLogs
          else db.exerciseLogs ++ [exerciseLogOfData currentUserId d simulatedDay]
        | _, _ => db.exerciseLogs
      let base : PyDict :=
        match message.actionData with
        | some d => if d.isEmpty then [] else d
        | none => []
      let updatedData := dset (dpop base "is_tracked") "isTracked" (.vBool true)
      let updatedMessage := { message with actionData := some updatedData }
      .ok
        ({ messages := db.messages.map
             (fun m => if m.id == messageId then updatedMessage else m)
           mealLogs := newMealLogs
           exerciseLogs := newExerciseLogs },
         updatedMessage)

/-- Outcome of one `generate_content_async` attempt inside
`GoogleLLMProvider.extract_json`: `success parsed` is a completed call,
carrying the value of `self._parse_json(self._extract_text(response))` —
both of those are total (every internal parse failure yields `[]`, never
an exception), so a malformed response is still a `success` whose payload
is the empty list; `failure msg` is a raised exception with message
`str(e)`. -/
inductive AttemptOutcome where
  | success (parsed : List PyDict)
  | failure (msg : String)

/-- `is_rate_limit = "429" in msg or "rate" in msg.lower()`. -/
def isRateLimitMsg (msg : String) : Bool :=
  strContains msg "429" || strContains (lowerStr msg) "rate"

/-- The `for attempt in range(max_retries)` loop of `extract_json` with
`max_retries = 3`: `remaining` is the number of loop iterations left,
`attempt` the 0-based index of the current attempt, `sleeps` the
accumulated `asyncio.sleep` durations (`2 ** (attempt + 1)` seconds).
Returns the parsed list, the number of attempts made, and the sleeps. -/
def extractJsonAux (outcomes : Nat → AttemptOutcome) :
    Nat → Nat → List Nat → List PyDict × Nat × List Nat
  | 0, attempt, sleeps => ([], attempt, sleeps)
  | remaining + 1, attempt, sleeps =>
    match outcomes attempt with
    | .success parsed => (parsed, attempt + 1, sleeps)
    | .failure msg =>
      if isRateLimitMsg msg ∧ attempt + 1 < 3 then
        extractJsonAux outcomes remaining (attempt + 1)
          (sleeps ++ [2 ^ (attempt + 1)])
      else ([], attempt + 1, sleeps)

/-- `GoogleLLMProvider.extract_json` as a function of the per-attempt
outcomes: three loop iterations starting at attempt 0 with no sleeps. -/
def extractJson (outcomes : Nat → AttemptOutcome) :
    List PyDict × Nat × List Nat :=
  extractJsonAux outcomes 3 0 []

/-- A concrete environment with no LLM provider configured, no user
context, and an unknown vision result. -/
def envNoLLM : BrainEnv :=
  { llmAvailable := false
    ctx := none
    vision := { category := .unknown }
    exerciseLLM := .raised
    generalLLM := .raised }

/-- A concrete successful LLM extraction, for the C3 witness. -/
def extractBench : ExerciseExtraction :=
  { exerciseName := some "Bench Press"
    sets := some 3
    reps := some 8
    weightKg := some 60 }

def envSchedOther : BrainEnv :=
  { llmAvailable := true
    ctx := some { caloriesConsumed := 0, caloriesTarget := 2000,
                  workoutsCompleted := 0, scheduledExercises := ["Squat"] }
    vision := { category := .unknown }
    exerciseLLM := .parsed extractBench
    generalLLM := .raised }

def envSchedEmpty : BrainEnv :=
  { llmAvailable := true
    ctx := some { caloriesConsumed := 0, caloriesTarget := 2000,
                  workoutsCompleted := 0, scheduledExercises := [] }
    vision := { category := .unknown }
    exerciseLLM := .parsed extractBench
    generalLLM := .raised }

def envSchedHit : BrainEnv :=
  { llmAvailable := true
    ctx := some { caloriesConsumed := 0, caloriesTarget := 2000,
                  workoutsCompleted := 0,
                  scheduledExercises := ["Bench Press", "Squat"] }
    vision := { category := .unknown }
    exerciseLLM := .parsed extractBench
    generalLLM := .raised }

/-- Eleven stored messages of one user, createdAt 0..10: the failing
input for the chat-history recency claim. -/
def chatRows11 : List ChatMsgRow :=
  (List.range 11).map
    (fun i => { userId := 0, role := .user,
                content := "m" ++ toString i, createdAt := i })

/-- A stored PROPOSE_FOOD payload for the C7 witness. -/
def proposePayload : PyDict :=
  [ ("isTracked", .vBool false),
    ("meal_name", .vStr "Omelette"),
    ("meal_type", .vStr "snack"),
    ("calories", .vInt 350),
    ("protein_g", .vRat 20),
    ("carbs_g", .vRat 5),
    ("fat_g", .vRat 25) ]

/-- One untracked PROPOSE_FOOD message and empty log tables. -/
def dbPropose : ChatDb :=
  { messages := [
      { id := 1, userId := 7, role := .assistant, content := "proposal",
        actionType := .proposeFood, actionData := some proposePayload } ]
    mealLogs := []
    exerciseLogs := [] }

/-- One PROPOSE_EXERCISE message with a `None` payload, for the C10
witness. -/
def dbProposeEmpty : ChatDb :=
  { messages := [
      { id := 2, userId := 7, role := .assistant, content := "proposal",
        actionType := .proposeExercise, actionData := none } ]
    mealLogs := []
    exerciseLogs := [] }

/-- Every attempt raises a timeout-class error. -/
def outcomesTimeout : Nat → AttemptOutcome :=
  fun _ => .failure "timed out"

/-- A rate-limit failure followed by successes. -/
def outcomesRateThenOk : Nat → AttemptOutcome
  | 0 => .failure "429 Resource has been exhausted"
  | _ => .success [[("calories", .vInt 100)]]

/-- C1: for every text message (no audio/image attachment) whose lowered
content contains the substring "reset" anywhere, `process_message_async`
returns the RESET action with no payload, regardless of the environment —
in particular even when the message also contains a known food name and
even when "reset" sits inside an unrelated phrase. -/
theorem reset_substring_precedence (env : BrainEnv) (content : String)
    (hreset : strContains (lowerStr content) "reset" = true) :
    (processMessageAsync env .noneAttachment content).actionType = .reset ∧
    (processMessageAsync env .noneAttachment content).actionData = none := by
  unfold processMessageAsync
  simp [hreset, handleReset]

/-- Witness for C1: "I did not reset my banana watch" contains "reset"
inside an unrelated phrase, contains the known food "banana", and still
resets. -/
theorem reset_substring_precedence_witness :
    strContains (lowerStr "I did not reset my banana watch") "reset" = true ∧
    strContains (lowerStr "I did not reset my banana watch") "banana" = true ∧
    (processMessageAsync envNoLLM .noneAttachment
        "I did not reset my banana watch").actionType = .reset :=
  ⟨by decide, by decide,
    (reset_substring_precedence envNoLLM "I did not reset my banana watch"
      (by decide)).1⟩

theorem containsSubList_length {needle hay : List Char}
    (h : containsSubList needle hay = true) : needle.length ≤ hay.length := by
  induction hay with
  | nil =>
    have : needle = [] := by
      simpa [containsSubList, List.isEmpty_iff] using h
    simp [this]
  | cons c rest ih =>
    simp only [containsSubList, Bool.or_eq_true] at h
    rcases h with hp | hc
    · exact (List.isPrefixOf_iff_prefix.mp hp).length_le
    · exact le_trans (ih hc) (by simp)

theorem containsSubList_eq_of_length {needle hay : List Char}
    (h : containsSubList needle hay = true)
    (hl : needle.length = hay.length) : needle = hay := by
  induction hay with
  | nil =>
    simpa [containsSubList, List.isEmpty_iff] using h
  | cons c rest ih =>
    simp only [containsSubList, Bool.or_eq_true] at h
    rcases h with hp | hc
    · exact (List.isPrefixOf_iff_prefix.mp hp).eq_of_length hl
    · have := containsSubList_length hc
      simp at hl
      omega

theorem strContains_length {hay needle : String}
    (h : strContains hay needle = true) : needle.length ≤ hay.length :=
  containsSubList_length h

theorem strContains_eq_of_length {hay needle : String}
    (h : strContains hay needle = true)
    (hl : needle.length = hay.length) : needle = hay :=
  String.ext (containsSubList_eq_of_length h hl)

theorem pairwise_pySortByKeyDesc {α : Type} (key : α → Nat) (l : List α) :
    (pySortByKeyDesc key l).Pairwise (fun a b => key b ≤ key a) := by
  haveI : IsTotal α (fun a b => key b ≤ key a) :=
    ⟨fun a b => Nat.le_total (key b) (key a)⟩
  haveI : IsTrans α (fun a b => key b ≤ key a) :=
    ⟨fun _ _ _ hab hbc => Nat.le_trans hbc hab⟩
  exact List.sorted_insertionSort _ l

theorem mem_pySortByKeyDesc {α : Type} (key : α → Nat) (l : List α) (x : α) :
    x ∈ pySortByKeyDesc key l ↔ x ∈ l :=
  List.mem_insertionSort _

/-- In a list of pairs whose key lengths are descending, `find?` on
substring containment lands on an entry at least as long as any contained
member key. -/
theorem find_first_longer {β : Type} {msg : String} :
    ∀ {pairs : List (String × β)},
      pairs.Pairwise (fun a b => b.1.length ≤ a.1.length) →
      ∀ {B : String}, B ∈ pairs.map (fun p => p.1) →
      strContains msg B = true →
      ∃ p, pairs.find? (fun q => strContains msg q.1) = some p ∧
        B.length ≤ p.1.length := by
  intro pairs
  induction pairs with
  | nil =>
    intro _ B hB
    simp at hB
  | cons hd tl ih =>
    intro hpw B hB hBc
    rcases List.pairwise_cons.mp hpw with ⟨hhd, htl⟩
    by_cases hfind : strContains msg hd.1 = true
    · refine ⟨hd, by simp [List.find?, hfind], ?_⟩
      rcases List.mem_map.mp hB with ⟨q, hq, hq1⟩
      rcases List.mem_cons.mp hq with rfl | hqtl
      · simp [hq1]
      · exact hq1 ▸ hhd q hqtl
    · have hBtl : B ∈ tl.map (fun p => p.1) := by
        rcases List.mem_map.mp hB with ⟨q, hq, hq1⟩
        rcases List.mem_cons.mp hq with rfl | hqtl
        · exact absurd (hq1 ▸ hBc) hfind
        · exact List.mem_map.mpr ⟨q, hqtl, hq1⟩
      rcases ih htl hBtl hBc with ⟨p, hp, hlen⟩
      refine ⟨p, ?_, hlen⟩
      simp [List.find?, hfind, hp]

theorem sortedFoodPairs_sorted :
    List.Pairwise (fun a b => b.1.length ≤ a.1.length) sortedFoodPairs :=
  pairwise_pySortByKeyDesc (fun p => p.1.length) foodDB

theorem foodNames_mem_sorted :
    ∀ x ∈ foodNames, x ∈ sortedFoodPairs.map (fun p => p.1) := by
  intro x hx
  unfold foodNames at hx
  rcases List.mem_map.mp hx with ⟨p, hp, hp1⟩
  refine List.mem_map.mpr ⟨p, ?_, hp1⟩
  unfold sortedFoodPairs
  exact (mem_pySortByKeyDesc _ _ _).mpr hp

theorem sortedFoodPairs_mem_foodDB :
    ∀ p ∈ sortedFoodPairs, p ∈ foodDB := by
  intro p hp
  unfold sortedFoodPairs at hp
  exact (mem_pySortByKeyDesc _ _ _).mp hp

/-- C2 (amended): for known foods A and B with A a proper substring of B,
any message containing B is parsed to a `LOG_FOOD` action whose payload
carries the name and table macros of some known food at least as long as
B — hence never of A.  (The payload food need not be B itself: a still
longer known food contained in the message wins, see the
counterexample.) -/
theorem food_longest_match (ctx : Option BrainCtx) (msg A B : String)
    (_hA : A ∈ foodNames) (hB : B ∈ foodNames)
    (hsub : strContains B A = true) (hne : A ≠ B)
    (hmsg : strContains (lowerStr msg) B = true) :
    ∃ r C macros, parseFood ctx msg = some r ∧
      r.actionType = .logFood ∧
      (C, macros) ∈ foodDB ∧
      B.length ≤ C.length ∧ C ≠ A ∧
      r.actionData = some
        [ ("food", .vStr C),
          ("meal_name", .vStr (pyTitle C)),
          ("meal_type", .vStr "snack"),
          ("calories", .vInt macros.calories),
          ("protein_g", .vRat macros.protein),
          ("carbs_g", .vRat macros.carbs),
          ("fat_g", .vRat macros.fat) ] := by
  have hBmem : B ∈ sortedFoodPairs.map (fun p => p.1) :=
    foodNames_mem_sorted B hB
  obtain ⟨p, hp, hlen⟩ :=
    find_first_longer sortedFoodPairs_sorted hBmem hmsg
  obtain ⟨C, m⟩ := p
  have hlen2 : B.length ≤ C.length := hlen
  have hmem : (C, m) ∈ foodDB :=
    sortedFoodPairs_mem_foodDB _ (List.mem_of_find?_eq_some hp)
  have hALt : A.length < B.length := by
    have hle := strContains_length hsub
    rcases Nat.lt_or_ge A.length B.length with h | h
    · exact h
    · exact absurd (strContains_eq_of_length hsub (Nat.le_antisymm h hle).symm)
        hne
  have hCA : C ≠ A := by
    intro hEq
    rw [hEq] at hlen2
    omega
  have hPF : parseFood ctx msg = some
      { content := "✅ Logged " ++ C ++ ": " ++ toString m.calories ++
          " kcal, " ++ toString m.protein ++ "g protein" ++
          buildFoodProgressMessage ctx m.calories m.protein
        actionType := .logFood
        actionData := some
          [ ("food", .vStr C),
            ("meal_name", .vStr (pyTitle C)),
            ("meal_type", .vStr "snack"),
            ("calories", .vInt m.calories),
            ("protein_g", .vRat m.protein),
            ("carbs_g", .vRat m.carbs),
            ("fat_g", .vRat m.fat) ] } := by
    unfold parseFood
    rw [hp]
  exact ⟨_, C, m, hPF, rfl, hmem, hlen2, hCA, rfl⟩

/-- Counterexample to C2 as stated: A = "chicken" is a proper substring of
the known food B = "chicken salad", the message "I ate a grilled chicken
salad" contains B, yet the parser classifies it as "grilled chicken
salad", not as B. -/
theorem food_longest_match_counterexample :
    ("chicken" ∈ foodNames) ∧ ("chicken salad" ∈ foodNames) ∧
    strContains "chicken salad" "chicken" = true ∧
    ("chicken" : String) ≠ "chicken salad" ∧
    strContains (lowerStr "I ate a grilled chicken salad") "chicken salad"
      = true ∧
    ((parseFood none "I ate a grilled chicken salad").bind
        (fun r => r.actionData)).bind (fun d => dget d "food") =
      some (.vStr "grilled chicken salad") ∧
    ("grilled chicken salad" : String) ≠ "chicken salad" :=
  ⟨by decide, by decide, by decide, by decide, by decide, rfl, by decide⟩

/-- Witness for the amended C2 at A = "chicken", B = "chicken salad" and
the message "I had a chicken salad". -/
theorem food_longest_match_witness :
    ("chicken" ∈ foodNames) ∧ ("chicken salad" ∈ foodNames) ∧
    strContains "chicken salad" "chicken" = true ∧
    strContains (lowerStr "I had a chicken salad") "chicken salad" = true ∧
    ∃ r C macros, parseFood none "I had a chicken salad" = some r ∧
      r.actionType = .logFood ∧ (C, macros) ∈ foodDB ∧
      ("chicken salad" : String).length ≤ C.length ∧ C ≠ "chicken" :=
  ⟨by decide, by decide, by decide, by decide, by
    obtain ⟨r, C, macros, h1, h2, h3, h4, h5, _⟩ :=
      food_longest_match none "I had a chicken salad" "chicken"
        "chicken salad" (by decide) (by decide) (by decide) (by decide)
        (by decide)
    exact ⟨r, C, macros, h1, h2, h3, h4, h5⟩⟩

theorem llmResponse_noneAction (env : BrainEnv) :
    (llmResponse env).actionType = .noneAction ∧
    (llmResponse env).actionData = none := by
  unfold llmResponse
  split
  · exact ⟨rfl, rfl⟩
  · split
    · exact ⟨rfl, rfl⟩
    · exact ⟨rfl, rfl⟩
    · split
      · exact ⟨rfl, rfl⟩
      · exact ⟨rfl, rfl⟩

/-- C5 (amended): a text message (no attachment, no "reset" substring)
containing a food trigger word but no known food name and also no exercise
keyword yields the NONE action with no payload.  (Without the last
exclusion the claim fails: the missed food path falls through to the
exercise path, see the counterexample.) -/
theorem food_trigger_no_match_none (env : BrainEnv) (content : String)
    (hreset : strContains (lowerStr content) "reset" = false)
    (htrig : foodKeywords.any (fun k => strContains (lowerStr content) k)
      = true)
    (hnofood : ∀ f ∈ foodNames, strContains (lowerStr content) f = false)
    (hnoex : ∀ k ∈ exerciseKeywords,
      strContains (lowerStr content) k = false) :
    (processMessageAsync env .noneAttachment content).actionType
      = .noneAction ∧
    (processMessageAsync env .noneAttachment content).actionData = none := by
  have hfood : hasFoodKeywords content = true := by
    unfold hasFoodKeywords
    simp [htrig]
  have hpf : parseFood env.ctx content = none := by
    unfold parseFood
    have hfind : sortedFoodPairs.find?
        (fun p => strContains (lowerStr content) p.1) = none := by
      refine List.find?_eq_none.mpr (fun p hp => ?_)
      have hmem : p.1 ∈ foodNames :=
        List.mem_map.mpr ⟨p, sortedFoodPairs_mem_foodDB p hp, rfl⟩
      simp [hnofood p.1 hmem]
    rw [hfind]
  have hex : hasExerciseKeywords content = false := by
    unfold hasExerciseKeywords
    exact List.any_eq_false.mpr (fun k hk => by simp [hnoex k hk])
  have hllm := llmResponse_noneAction env
  unfold processMessageAsync
  simp [hreset, hfood, hpf, hex, hllm.1, hllm.2]

/-- Counterexample to C5 as stated: "ate bench" contains the food trigger
"ate" and no known food name, yet with no LLM configured the exercise
fallback fires and the emitted action is LOG_EXERCISE, not NONE. -/
theorem food_trigger_no_match_counterexample :
    foodKeywords.any (fun k => strContains (lowerStr "ate bench") k)
      = true ∧
    (∀ f ∈ foodNames, strContains (lowerStr "ate bench") f = false) ∧
    strContains (lowerStr "ate bench") "reset" = false ∧
    (processMessageAsync envNoLLM .noneAttachment "ate bench").actionType
      = .logExercise ∧
    ChatActionType.logExercise ≠ .noneAction :=
  ⟨by decide, by decide, by decide, rfl, by decide⟩

/-- Witness for the amended C5 at "I ate some zzz". -/
theorem food_trigger_no_match_witness :
    strContains (lowerStr "I ate some zzz") "reset" = false ∧
    foodKeywords.any (fun k => strContains (lowerStr "I ate some zzz") k)
      = true ∧
    (∀ f ∈ foodNames, strContains (lowerStr "I ate some zzz") f = false) ∧
    (∀ k ∈ exerciseKeywords,
      strContains (lowerStr "I ate some zzz") k = false) ∧
    (processMessageAsync envNoLLM .noneAttachment
        "I ate some zzz").actionType = .noneAction ∧
    (processMessageAsync envNoLLM .noneAttachment
        "I ate some zzz").actionData = none := by
  refine ⟨by decide, by decide, by decide, by decide, ?_, ?_⟩
  · exact (food_trigger_no_match_none envNoLLM "I ate some zzz" (by decide)
      (by decide) (by decide) (by decide)).1
  · exact (food_trigger_no_match_none envNoLLM "I ate some zzz" (by decide)
      (by decide) (by decide) (by decide)).2

theorem parseFood_actionType {ctx : Option BrainCtx} {content : String}
    {r : BrainResponse} (h : parseFood ctx content = some r) :
    r.actionType = .logFood := by
  unfold parseFood at h
  cases hfind : sortedFoodPairs.find?
      (fun p => strContains (lowerStr content) p.1) with
  | none => rw [hfind] at h; cases h
  | some p =>
    obtain ⟨C, m⟩ := p
    rw [hfind] at h
    cases h
    rfl

theorem parseExercise_actionType {ctx : Option BrainCtx} {content : String}
    {r : BrainResponse} (h : parseExercise ctx content = some r) :
    r.actionType = .logExercise := by
  unfold parseExercise at h
  cases hfind : sortedExercisePairs.find?
      (fun p => strContains (lowerStr content) p.1) with
  | none => rw [hfind] at h; cases h
  | some p =>
    obtain ⟨k, nm⟩ := p
    rw [hfind] at h
    cases h
    rfl

theorem handleImageAttachment_cases (r : VisionResult) :
    (handleImageAttachment r).actionType = .proposeExercise ∨
    (handleImageAttachment r).actionType = .proposeFood ∨
    (handleImageAttachment r).actionType = .noneAction := by
  unfold handleImageAttachment
  split
  · right; right; rfl
  · split
    · left; rfl
    · split
      · right; left; rfl
      · right; right; rfl

theorem parseExerciseWithLLM_actionType {env : BrainEnv} {content : String}
    {r : BrainResponse} (h : parseExerciseWithLLM env content = some r) :
    r.actionType = .logExercise ∨ r.actionType = .noneAction := by
  simp only [parseExerciseWithLLM] at h
  split at h
  · exact Or.inl (parseExercise_actionType h)
  · split at h
    · exact Or.inl (parseExercise_actionType h)
    · exact Or.inl (parseExercise_actionType h)
    · exact Or.inl (parseExercise_actionType h)
    · split at h
      · cases h
      · split at h
        · cases h
        · split at h
          · split at h
            · cases h; right; rfl
            · cases h; right; rfl
          · cases h; left; rfl

/-- C4: image messages never log directly — for every environment the
action emitted on the image path is PROPOSE_EXERCISE, PROPOSE_FOOD or
NONE, never LOG_FOOD / LOG_EXERCISE / RESET; conversely a PROPOSE action
is never emitted for a non-image attachment. -/
theorem image_propose_invariant (env : BrainEnv)
    (att : ChatAttachmentType) (content : String) :
    (att = .image →
      (processMessageAsync env att content).actionType ≠ .logFood ∧
      (processMessageAsync env att content).actionType ≠ .logExercise ∧
      (processMessageAsync env att content).actionType ≠ .reset) ∧
    (att ≠ .image →
      (processMessageAsync env att content).actionType ≠ .proposeFood ∧
      (processMessageAsync env att content).actionType ≠ .proposeExercise) := by
  constructor
  · intro hatt
    subst hatt
    have himg : processMessageAsync env .image content
        = handleImageAttachment env.vision := rfl
    rw [himg]
    rcases handleImageAttachment_cases env.vision with h1 | h1 | h1 <;>
      simp [h1]
  · intro hatt
    cases att with
    | image => exact absurd rfl hatt
    | audio =>
      have haud : processMessageAsync env .audio content
          = handleAudioAttachment := rfl
      rw [haud]
      exact ⟨by simp [handleAudioAttachment], by simp [handleAudioAttachment]⟩
    | noneAttachment =>
      have hsplit :
          (processMessageAsync env .noneAttachment content).actionType = .reset ∨
          (processMessageAsync env .noneAttachment content).actionType = .logFood ∨
          (processMessageAsync env .noneAttachment content).actionType = .logExercise ∨
          (processMessageAsync env .noneAttachment content).actionType = .noneAction := by
        unfold processMessageAsync
        cases hres : strContains (lowerStr content) "reset" with
        | true => simp [hres, handleReset]
        | false =>
          simp only [hres]
          cases hfk : hasFoodKeywords content with
          | true =>
            cases hpf : parseFood env.ctx content with
            | some r =>
              simp [hfk, hpf, parseFood_actionType hpf]
            | none =>
              cases hek : hasExerciseKeywords content with
              | true =>
                cases hpe : parseExerciseWithLLM env content with
                | some r =>
                  simp only [hfk, hpf, hek, hpe]
                  rcases parseExerciseWithLLM_actionType hpe with h1 | h1 <;>
                    simp [h1]
                | none =>
                  simp [hfk, hpf, hek, hpe, (llmResponse_noneAction env).1]
              | false =>
                simp [hfk, hpf, hek, (llmResponse_noneAction env).1]
          | false =>
            cases hek : hasExerciseKeywords content with
            | true =>
              cases hpe : parseExerciseWithLLM env content with
              | some r =>
                simp only [hfk, hek, hpe]
                rcases parseExerciseWithLLM_actionType hpe with h1 | h1 <;>
                  simp [h1]
              | none =>
                simp [hfk, hek, hpe, (llmResponse_noneAction env).1]
            | false =>
              simp [hfk, hek, (llmResponse_noneAction env).1]
      rcases hsplit with h1 | h1 | h1 | h1 <;> simp [h1]

/-- Witness for C4: with an unknown-image vision result, an image message
yields no LOG action, and a plain text message yields no PROPOSE action. -/
theorem image_propose_invariant_witness :
    ((processMessageAsync envNoLLM .image "what is this").actionType
      ≠ .logFood) ∧
    ((processMessageAsync envNoLLM .noneAttachment "hello").actionType
      ≠ .proposeFood) :=
  ⟨((image_propose_invariant envNoLLM .image "what is this").1 rfl).1,
   ((image_propose_invariant envNoLLM .noneAttachment "hello").2
      (by decide)).1⟩

/-- C3: when the LLM extraction succeeds with a non-null exercise name,
(a) a name missing from a non-empty schedule yields NONE with a message
listing today's plan, (b) an empty schedule yields the rest-day NONE
message, (c) a scheduled name (case-insensitive) yields LOG_EXERCISE with
the extracted sets/reps/weight (source defaults 1/10/0 for absent
fields). -/
theorem exercise_llm_schedule_validation (env : BrainEnv) (content : String)
    (d : ExerciseExtraction) (nm : String)
    (hllm : env.llmAvailable = true)
    (hout : env.exerciseLLM = .parsed d)
    (hname : d.exerciseName = some nm)
    (hne : nm ≠ "") :
    ((scheduledNamesOf env).any (fun n => lowerStr n == lowerStr nm) = false →
      scheduledNamesOf env ≠ [] →
      parseExerciseWithLLM env content = some
        { content := "❌ " ++ nm ++ " is not in today" ++ apos ++
            "s workout plan.\n\nToday" ++ apos ++ "s exercises: " ++
            String.intercalate ", " (scheduledNamesOf env)
          actionType := .noneAction
          actionData := none }) ∧
    (scheduledNamesOf env = [] →
      parseExerciseWithLLM env content = some
        { content := "❌ Today is a rest day - no exercises scheduled!"
          actionType := .noneAction
          actionData := none }) ∧
    ((scheduledNamesOf env).any (fun n => lowerStr n == lowerStr nm) = true →
      ∃ r, parseExerciseWithLLM env content = some r ∧
        r.actionType = .logExercise ∧
        r.actionData = some
          [ ("exercise_name", .vStr nm),
            ("sets", .vInt (d.sets.getD 1)),
            ("reps", .vInt (d.reps.getD 10)),
            ("weight_kg", .vRat (d.weightKg.getD 0)) ]) := by
  refine ⟨?_, ?_, ?_⟩
  · intro hany hnonempty
    simp only [parseExerciseWithLLM, hllm, hout, hname]
    simp [hne, hany, hnonempty]
  · intro hempty
    simp only [parseExerciseWithLLM, hllm, hout, hname]
    simp [hne, hempty]
  · intro hany
    have hEq : parseExerciseWithLLM env content = some
        { content := "💪 Logged " ++ nm ++ ": " ++
            toString (d.sets.getD 1) ++ "x" ++ toString (d.reps.getD 10) ++
            (if d.weightKg.getD 0 > 0 then
              " @ " ++ toString (d.weightKg.getD 0) ++ "kg"
            else "") ++
            buildExerciseProgressMessage env.ctx nm
          actionType := .logExercise
          actionData := some
            [ ("exercise_name", .vStr nm),
              ("sets", .vInt (d.sets.getD 1)),
              ("reps", .vInt (d.reps.getD 10)),
              ("weight_kg", .vRat (d.weightKg.getD 0)) ] } := by
      simp only [parseExerciseWithLLM, hllm, hout, hname]
      simp [hne, hany]
    exact ⟨_, hEq, rfl, rfl⟩

/-- Witness for C3 at the extraction "Bench Press", exercising all three
branches: scheduled ["Squat"], an empty schedule, and a schedule
containing "Bench Press". -/
theorem exercise_llm_schedule_validation_witness :
    (parseExerciseWithLLM envSchedOther "did bench press today" = some
      { content := "❌ " ++ "Bench Press" ++ " is not in today" ++ apos ++
          "s workout plan.\n\nToday" ++ apos ++ "s exercises: " ++
          String.intercalate ", " (scheduledNamesOf envSchedOther)
        actionType := .noneAction
        actionData := none }) ∧
    (parseExerciseWithLLM envSchedEmpty "did bench press today" = some
      { content := "❌ Today is a rest day - no exercises scheduled!"
        actionType := .noneAction
        actionData := none }) ∧
    (∃ r, parseExerciseWithLLM envSchedHit "did bench press today" = some r ∧
      r.actionType = .logExercise ∧
      r.actionData = some
        [ ("exercise_name", .vStr "Bench Press"),
          ("sets", .vInt (extractBench.sets.getD 1)),
          ("reps", .vInt (extractBench.reps.getD 10)),
          ("weight_kg", .vRat (extractBench.weightKg.getD 0)) ]) :=
  ⟨(exercise_llm_schedule_validation envSchedOther "did bench press today"
      extractBench "Bench Press" rfl rfl rfl (by decide)).1
      (by decide) (by decide),
   (exercise_llm_schedule_validation envSchedEmpty "did bench press today"
      extractBench "Bench Press" rfl rfl rfl (by decide)).2.1 rfl,
   (exercise_llm_schedule_validation envSchedHit "did bench press today"
      extractBench "Bench Press" rfl rfl rfl (by decide)).2.2 (by decide)⟩

theorem isDigit_pyToLower (c : Char) (h : c.isDigit = false) :
    (pyToLower c).isDigit = false := by
  unfold pyToLower
  cases hf : asciiUpperLower.find? (fun p => p.1 == c) with
  | none => exact h
  | some p =>
    have hp : p ∈ asciiUpperLower := List.mem_of_find?_eq_some hf
    have hall : ∀ q ∈ asciiUpperLower, q.2.isDigit = false := by decide
    exact hall p hp

theorem takeWhile_isDigit_eq_nil {cs : List Char}
    (h : ∀ c ∈ cs, c.isDigit = false) : cs.takeWhile Char.isDigit = [] := by
  cases cs with
  | nil => rfl
  | cons c rest => simp [List.takeWhile_cons, h c (by simp)]

theorem matchSetsAt_eq_none {cs : List Char}
    (h : ∀ c ∈ cs, c.isDigit = false) : matchSetsAt cs = none := by
  unfold matchSetsAt
  simp [takeWhile_isDigit_eq_nil h]

theorem matchRepsAltAt_eq_none {cs : List Char}
    (h : ∀ c ∈ cs, c.isDigit = false) : matchRepsAltAt cs = none := by
  unfold matchRepsAltAt
  simp [takeWhile_isDigit_eq_nil h]

theorem matchRepsNumberAfter_eq_none {rest : List Char}
    (h : ∀ c ∈ rest, c.isDigit = false) :
    matchRepsNumberAfter rest = none := by
  unfold matchRepsNumberAfter
  have hd : ∀ c ∈ rest.dropWhile pyIsSpace, c.isDigit = false :=
    fun c hc => h c ((List.dropWhile_sublist pyIsSpace).subset hc)
  simp [takeWhile_isDigit_eq_nil hd]

theorem matchRepsPrimaryAt_eq_none {cs : List Char}
    (h : ∀ c ∈ cs, c.isDigit = false) : matchRepsPrimaryAt cs = none := by
  unfold matchRepsPrimaryAt
  have hd : ∀ n : Nat, ∀ c ∈ cs.drop n, c.isDigit = false :=
    fun n c hc => h c ((List.drop_sublist n cs).subset hc)
  by_cases h1 : "x".data.isPrefixOf cs = true
  · rw [if_pos h1]
    exact matchRepsNumberAfter_eq_none (hd 1)
  · rw [if_neg h1]
    by_cases h2 : "for".data.isPrefixOf cs = true
    · rw [if_pos h2]
      exact matchRepsNumberAfter_eq_none (hd 3)
    · rw [if_neg h2]

theorem matchNumberAt_eq_none {cs : List Char}
    (h : ∀ c ∈ cs, c.isDigit = false) : matchNumberAt cs = none := by
  unfold matchNumberAt
  simp [takeWhile_isDigit_eq_nil h]

theorem matchWeightKgAt_eq_none {cs : List Char}
    (h : ∀ c ∈ cs, c.isDigit = false) : matchWeightKgAt cs = none := by
  unfold matchWeightKgAt
  simp [matchNumberAt_eq_none h]

theorem matchWeightLbsAt_eq_none {cs : List Char}
    (h : ∀ c ∈ cs, c.isDigit = false) : matchWeightLbsAt cs = none := by
  unfold matchWeightLbsAt
  simp [matchNumberAt_eq_none h]

theorem pySearch_eq_none {α : Type} (matchAt : List Char → Option α)
    (hm : ∀ suffix : List Char,
      (∀ c ∈ suffix, c.isDigit = false) → matchAt suffix = none) :
    ∀ cs : List Char, (∀ c ∈ cs, c.isDigit = false) →
      pySearch matchAt cs = none := by
  intro cs
  induction cs with
  | nil =>
    intro _
    unfold pySearch
    exact hm [] (by simp)
  | cons c rest ih =>
    intro h
    unfold pySearch
    rw [hm (c :: rest) h]
    exact ih (fun c2 hc2 => h c2 (by simp [hc2]))

/-- C9: a message containing no digits yields exactly the defaults
sets=3, reps=10, weight_kg=0.0 from `_extract_exercise_values`, and
consequently a keyword-matched exercise log from such a message carries
exactly these default values in its payload. -/
theorem numeric_extraction_defaults (ctx : Option BrainCtx)
    (content : String)
    (h : ∀ c ∈ content.data, c.isDigit = false) :
    extractExerciseValues content = (3, 10, 0) ∧
    (∀ r, parseExercise ctx content = some r →
      r.actionType = .logExercise ∧
      ∃ nm, r.actionData = some
        [ ("exercise_name", .vStr nm),
          ("sets", .vInt 3),
          ("reps", .vInt 10),
          ("weight_kg", .vRat 0) ]) := by
  have hlow : ∀ c ∈ (lowerStr content).data, c.isDigit = false := by
    intro c hc
    unfold lowerStr at hc
    simp only [List.mem_map] at hc
    obtain ⟨a, ha, rfl⟩ := hc
    exact isDigit_pyToLower a (h a ha)
  have hvals : extractExerciseValues content = (3, 10, 0) := by
    simp only [extractExerciseValues]
    rw [pySearch_eq_none matchSetsAt
          (fun _ hs => matchSetsAt_eq_none hs) _ hlow,
        pySearch_eq_none matchRepsPrimaryAt
          (fun _ hs => matchRepsPrimaryAt_eq_none hs) _ hlow,
        pySearch_eq_none matchRepsAltAt
          (fun _ hs => matchRepsAltAt_eq_none hs) _ hlow,
        pySearch_eq_none matchWeightKgAt
          (fun _ hs => matchWeightKgAt_eq_none hs) _ hlow,
        pySearch_eq_none matchWeightLbsAt
          (fun _ hs => matchWeightLbsAt_eq_none hs) _ hlow]
  refine ⟨hvals, fun r hr => ?_⟩
  unfold parseExercise at hr
  cases hfind : sortedExercisePairs.find?
      (fun p => strContains (lowerStr content) p.1) with
  | none => rw [hfind] at hr; cases hr
  | some p =>
    obtain ⟨k, nm⟩ := p
    rw [hfind] at hr
    cases hr
    refine ⟨rfl, nm, ?_⟩
    simp [hvals]

/-- Witness for C9 at "did some bench": no digits, defaults extracted,
and the matched exercise log carries them. -/
theorem numeric_extraction_defaults_witness :
    (∀ c ∈ ("did some bench" : String).data, c.isDigit = false) ∧
    extractExerciseValues "did some bench" = (3, 10, 0) ∧
    ∃ r, parseExercise none "did some bench" = some r ∧
      r.actionType = .logExercise ∧
      ∃ nm, r.actionData = some
        [ ("exercise_name", .vStr nm),
          ("sets", .vInt 3),
          ("reps", .vInt 10),
          ("weight_kg", .vRat 0) ] := by
  refine ⟨by decide,
    (numeric_extraction_defaults none "did some bench" (by decide)).1, ?_⟩
  have happ := (numeric_extraction_defaults none "did some bench"
    (by decide)).2
  have hsome : (parseExercise none "did some bench").isSome = true := rfl
  cases hpe : parseExercise none "did some bench" with
  | none => rw [hpe] at hsome; cases hsome
  | some r => exact ⟨r, rfl, happ r hpe⟩

/-- For C6 (code bug): at the failing input of eleven stored messages the
built chat history holds the ten OLDEST messages (createdAt 0..9) and the
most recent message ("m10", the maximal createdAt) never appears —
`get_chat_messages` orders ascending and then limits, while the claim
and the builder's own comments ask for the most recent ten. -/
theorem chat_history_oldest_ten_at_failing_input :
    (chatRows11.map (fun m => m.createdAt)).max? = some 10 ∧
    buildChatHistory chatRows11 0 =
      [("user","m0"),("user","m1"),("user","m2"),("user","m3"),
       ("user","m4"),("user","m5"),("user","m6"),("user","m7"),
       ("user","m8"),("user","m9")] ∧
    (∀ e ∈ buildChatHistory chatRows11 0, e.2 ≠ "m10") := by
  refine ⟨by decide, by decide, by decide⟩

theorem dget_cons_ne {d : PyDict} {k : String} {p : String × PyVal}
    (h : (p.1 == k) = false) : dget (p :: d) k = dget d k := by
  simp [dget, List.find?, h]

theorem dget_append_single {d : PyDict} {k : String} {v : PyVal}
    (h : ∀ p ∈ d, (p.1 == k) = false) :
    dget (d ++ [(k, v)]) k = some v := by
  induction d with
  | nil => simp [dget, List.find?]
  | cons p rest ih =>
    rw [List.cons_append, dget_cons_ne (h p (by simp))]
    exact ih (fun q hq => h q (by simp [hq]))

theorem dget_map_set {d : PyDict} {k : String} {v : PyVal}
    (hany : d.any (fun p => p.1 == k) = true) :
    dget (d.map (fun p => if p.1 == k then (p.1, v) else p)) k = some v := by
  induction d with
  | nil => cases hany
  | cons p rest ih =>
    cases hp : (p.1 == k) with
    | true => simp [dget, List.find?, List.map_cons, hp]
    | false =>
      simp only [List.any_cons, hp, Bool.false_or] at hany
      simp only [List.map_cons, hp, Bool.false_eq_true, if_false]
      rw [dget_cons_ne hp]
      exact ih hany

theorem dget_dset (d : PyDict) (k : String) (v : PyVal) :
    dget (dset d k v) k = some v := by
  unfold dset
  by_cases hany : d.any (fun p => p.1 == k) = true
  · rw [if_pos hany]
    exact dget_map_set hany
  · rw [if_neg hany]
    refine dget_append_single (fun p hp => ?_)
    cases h2 : (p.1 == k) with
    | true => exact absurd (List.any_eq_true.mpr ⟨p, hp, h2⟩) hany
    | false => rfl

theorem dget_isEmpty_false {d : PyDict} {k : String} {v : PyVal}
    (h : dget d k = some v) : d.isEmpty = false := by
  cases d with
  | nil => cases h
  | cons p rest => rfl

theorem find?_map_update {l : List ChatStoredMessage} {mid : Nat}
    {m m2 : ChatStoredMessage}
    (hfind : l.find? (fun x => x.id == mid) = some m)
    (hid : m2.id = m.id) :
    (l.map (fun x => if x.id == mid then m2 else x)).find?
      (fun x => x.id == mid) = some m2 := by
  induction l with
  | nil => cases hfind
  | cons a l ih =>
    cases ha : (a.id == mid) with
    | true =>
      have hma : m = a := by
        simp [List.find?, ha] at hfind
        exact hfind.symm
      have hm2 : (m2.id == mid) = true := by
        rw [hid, hma]
        exact ha
      simp [List.find?, List.map_cons, ha, hm2]
    | false =>
      simp only [List.find?, ha] at hfind
      simp only [List.map_cons, ha, Bool.false_eq_true, if_false]
      simp only [List.find?, ha]
      exact ih hfind

/-- C7: a stored PROPOSE message with a truthy, untracked payload confirms
exactly once — the first call succeeds, appends exactly one log row of the
corresponding kind (the other table untouched), and marks the payload
isTracked; the second call on the updated state is rejected with the 400
"Already tracked" error and, being an error, changes nothing. -/
theorem confirm_exactly_once (db : ChatDb) (uid : Nat) (simDay : Int)
    (mid : Nat) (m : ChatStoredMessage) (d : PyDict)
    (hfind : db.messages.find? (fun x => x.id == mid) = some m)
    (howner : m.userId = uid)
    (hkind : m.actionType = .proposeFood ∨ m.actionType = .proposeExercise)
    (hdata : m.actionData = some d)
    (hnonempty : d.isEmpty = false)
    (ht1 : dgetTruthy d "isTracked" = false)
    (ht2 : dgetTruthy d "is_tracked" = false) :
    ∃ db2 m2, confirmTracking db uid simDay mid = .ok (db2, m2) ∧
      (m.actionType = .proposeFood →
        db2.mealLogs = db.mealLogs ++ [mealLogOfData uid d simDay] ∧
        db2.exerciseLogs = db.exerciseLogs) ∧
      (m.actionType = .proposeExercise →
        db2.exerciseLogs = db.exerciseLogs ++
          [exerciseLogOfData uid d simDay] ∧
        db2.mealLogs = db.mealLogs) ∧
      m2.actionData.isSome = true ∧
      dget (m2.actionData.getD []) "isTracked" = some (.vBool true) ∧
      confirmTracking db2 uid simDay mid = .error .alreadyTracked := by
  have hget := dget_dset (dpop d "is_tracked") "isTracked" (.vBool true)
  have hne := dget_isEmpty_false hget
  rcases hkind with hk | hk
  · have heq : confirmTracking db uid simDay mid = .ok
        ({ messages := db.messages.map (fun x => if x.id == mid then
             { m with actionData := some (dset (dpop d "is_tracked")
                 "isTracked" (.vBool true)) } else x)
           mealLogs := db.mealLogs ++ [mealLogOfData uid d simDay]
           exerciseLogs := db.exerciseLogs },
         { m with actionData := some (dset (dpop d "is_tracked")
             "isTracked" (.vBool true)) }) := by
      simp [confirmTracking, hfind, howner, hk, hdata, hnonempty, ht1, ht2]
    refine ⟨_, _, heq, fun _ => ⟨rfl, rfl⟩,
      fun h2 => absurd (hk.symm.trans h2) (by decide), rfl, hget, ?_⟩
    have hfind2 := @find?_map_update _ mid m
      { m with actionData := some (dset (dpop d "is_tracked")
        "isTracked" (.vBool true)) } hfind rfl
    simp only [confirmTracking]
    rw [hfind2]
    simp [howner, hk, hne, hget, dgetTruthy, pyTruthy]
  · have heq : confirmTracking db uid simDay mid = .ok
        ({ messages := db.messages.map (fun x => if x.id == mid then
             { m with actionData := some (dset (dpop d "is_tracked")
                 "isTracked" (.vBool true)) } else x)
           mealLogs := db.mealLogs
           exerciseLogs := db.exerciseLogs ++
             [exerciseLogOfData uid d simDay] },
         { m with actionData := some (dset (dpop d "is_tracked")
             "isTracked" (.vBool true)) }) := by
      simp [confirmTracking, hfind, howner, hk, hdata, hnonempty, ht1, ht2]
    refine ⟨_, _, heq,
      fun h2 => absurd (hk.symm.trans h2) (by decide),
      fun _ => ⟨rfl, rfl⟩, rfl, hget, ?_⟩
    have hfind2 := @find?_map_update _ mid m
      { m with actionData := some (dset (dpop d "is_tracked")
        "isTracked" (.vBool true)) } hfind rfl
    simp only [confirmTracking]
    rw [hfind2]
    simp [howner, hk, hne, hget, dgetTruthy, pyTruthy]

/-- Witness for C7 on the concrete one-message state. -/
theorem confirm_exactly_once_witness :
    ∃ db2 m2, confirmTracking dbPropose 7 0 1 = .ok (db2, m2) ∧
      db2.mealLogs = dbPropose.mealLogs ++ [mealLogOfData 7 proposePayload 0] ∧
      db2.exerciseLogs = dbPropose.exerciseLogs ∧
      dget (m2.actionData.getD []) "isTracked" = some (.vBool true) ∧
      confirmTracking db2 7 0 1 = .error .alreadyTracked := by
  obtain ⟨db2, m2, h1, h2, _, _, h5, h6⟩ :=
    confirm_exactly_once dbPropose 7 0 1 _ proposePayload rfl rfl
      (Or.inl rfl) rfl rfl rfl rfl
  exact ⟨db2, m2, h1, (h2 rfl).1, (h2 rfl).2, h5, h6⟩

/-- C10: confirming a stored PROPOSE message whose payload is absent
(`None`) or the empty dict succeeds (the already-tracked check passes
because the payload is falsy), creates no log row of either kind, and
still rewrites the payload to exactly isTracked=true. -/
theorem confirm_empty_payload (db : ChatDb) (uid : Nat) (simDay : Int)
    (mid : Nat) (m : ChatStoredMessage)
    (hfind : db.messages.find? (fun x => x.id == mid) = some m)
    (howner : m.userId = uid)
    (hkind : m.actionType = .proposeFood ∨ m.actionType = .proposeExercise)
    (hdata : m.actionData = none ∨ m.actionData = some []) :
    ∃ db2 m2, confirmTracking db uid simDay mid = .ok (db2, m2) ∧
      db2.mealLogs = db.mealLogs ∧
      db2.exerciseLogs = db.exerciseLogs ∧
      m2.actionData = some [("isTracked", .vBool true)] := by
  rcases hkind with hk | hk <;> rcases hdata with hd | hd <;>
  · have heq : confirmTracking db uid simDay mid = .ok
        ({ messages := db.messages.map (fun x => if x.id == mid then
             { m with actionData := some [("isTracked", .vBool true)] }
           else x)
           mealLogs := db.mealLogs
           exerciseLogs := db.exerciseLogs },
         { m with actionData := some [("isTracked", .vBool true)] }) := by
      simp [confirmTracking, hfind, howner, hk, hd, dset, dpop]
    exact ⟨_, _, heq, rfl, rfl, rfl⟩

/-- Witness for C10 on the concrete payload-less message. -/
theorem confirm_empty_payload_witness :
    ∃ db2 m2, confirmTracking dbProposeEmpty 7 0 2 = .ok (db2, m2) ∧
      db2.mealLogs = [] ∧ db2.exerciseLogs = [] ∧
      m2.actionData = some [("isTracked", .vBool true)] := by
  obtain ⟨db2, m2, h1, h2, h3, h4⟩ :=
    confirm_empty_payload dbProposeEmpty 7 0 2 _ rfl rfl
      (Or.inr rfl) (Or.inl rfl)
  exact ⟨db2, m2, h1, h2, h3, h4⟩

/-- C8: the JSON-extraction loop makes at most 3 attempts, every retried
attempt was a rate-limit-class failure, the sleep after the k-th attempt
(1-based) is 2^k seconds, a completed first call returns its parsed value
(possibly the empty list, for malformed output) after exactly one attempt,
and a first failure that is not rate-limit-class returns the empty list
after exactly one attempt with no sleeps — and the function never raises
(it is total by construction). -/
theorem extract_json_retry_policy (outcomes : Nat → AttemptOutcome) :
    (extractJson outcomes).2.1 ≤ 3 ∧
    (extractJson outcomes).2.2 =
      (List.range ((extractJson outcomes).2.1 - 1)).map
        (fun i => 2 ^ (i + 1)) ∧
    (∀ i, i + 1 < (extractJson outcomes).2.1 →
      ∃ msg, outcomes i = .failure msg ∧ isRateLimitMsg msg = true) ∧
    (∀ parsed, outcomes 0 = .success parsed →
      (extractJson outcomes).1 = parsed ∧
      (extractJson outcomes).2.1 = 1) ∧
    (∀ msg, outcomes 0 = .failure msg → isRateLimitMsg msg = false →
      (extractJson outcomes).1 = [] ∧
      (extractJson outcomes).2.1 = 1 ∧
      (extractJson outcomes).2.2 = []) := by
  unfold extractJson
  cases h0 : outcomes 0 with
  | success p0 =>
    have e : extractJsonAux outcomes 3 0 [] = (p0, 1, []) := by
      simp [extractJsonAux, h0]
    rw [e]
    refine ⟨?_, rfl, fun i hi => ?_, fun parsed hp => ?_, fun msg hm => ?_⟩
    · show (1 : Nat) ≤ 3
      decide
    · have hi2 : i + 1 < 1 := hi
      omega
    · cases hp
      exact ⟨rfl, rfl⟩
    · cases hm
  | failure m0 =>
    cases hr0 : isRateLimitMsg m0 with
    | false =>
      have e : extractJsonAux outcomes 3 0 [] = ([], 1, []) := by
        simp [extractJsonAux, h0, hr0]
      rw [e]
      refine ⟨?_, rfl, fun i hi => ?_, fun parsed hp => ?_,
        fun msg hm hrate => ⟨rfl, rfl, rfl⟩⟩
      · show (1 : Nat) ≤ 3
        decide
      · have hi2 : i + 1 < 1 := hi
        omega
      · cases hp
    | true =>
      cases h1 : outcomes 1 with
      | success p1 =>
        have e : extractJsonAux outcomes 3 0 [] = (p1, 2, [2]) := by
          simp [extractJsonAux, h0, hr0, h1]
        rw [e]
        refine ⟨?_, rfl, fun i hi => ?_, fun parsed hp => ?_,
          fun msg hm hrate => ?_⟩
        · show (2 : Nat) ≤ 3
          decide
        · have hi2 : i + 1 < 2 := hi
          have hi0 : i = 0 := by omega
          subst hi0
          exact ⟨m0, h0, hr0⟩
        · cases hp
        · cases hm
          rw [hr0] at hrate
          cases hrate
      | failure m1 =>
        cases hr1 : isRateLimitMsg m1 with
        | false =>
          have e : extractJsonAux outcomes 3 0 [] = ([], 2, [2]) := by
            simp [extractJsonAux, h0, hr0, h1, hr1]
          rw [e]
          refine ⟨?_, rfl, fun i hi => ?_, fun parsed hp => ?_,
            fun msg hm hrate => ?_⟩
          · show (2 : Nat) ≤ 3
            decide
          · have hi2 : i + 1 < 2 := hi
            have hi0 : i = 0 := by omega
            subst hi0
            exact ⟨m0, h0, hr0⟩
          · cases hp
          · cases hm
            rw [hr0] at hrate
            cases hrate
        | true =>
          cases h2 : outcomes 2 with
          | success p2 =>
            have e : extractJsonAux outcomes 3 0 [] = (p2, 3, [2, 4]) := by
              simp [extractJsonAux, h0, hr0, h1, hr1, h2]
            rw [e]
            refine ⟨?_, rfl, fun i hi => ?_, fun parsed hp => ?_,
              fun msg hm hrate => ?_⟩
            · show (3 : Nat) ≤ 3
              decide
            · have hi2 : i + 1 < 3 := hi
              rcases i with _ | _ | i
              · exact ⟨m0, h0, hr0⟩
              · exact ⟨m1, h1, hr1⟩
              · omega
            · cases hp
            · cases hm
              rw [hr0] at hrate
              cases hrate
          | failure m2 =>
            have e : extractJsonAux outcomes 3 0 [] = ([], 3, [2, 4]) := by
              simp [extractJsonAux, h0, hr0, h1, hr1, h2]
            rw [e]
            refine ⟨?_, rfl, fun i hi => ?_, fun parsed hp => ?_,
              fun msg hm hrate => ?_⟩
            · show (3 : Nat) ≤ 3
              decide
            · have hi2 : i + 1 < 3 := hi
              rcases i with _ | _ | i
              · exact ⟨m0, h0, hr0⟩
              · exact ⟨m1, h1, hr1⟩
              · omega
            · cases hp
            · cases hm
              rw [hr0] at hrate
              cases hrate

/-- Witness for C8: a non-rate-limit failure ("timed out") returns the
empty list after one attempt with no sleeps; attempts stay within 3 on a
rate-limited run. -/
theorem extract_json_retry_policy_witness :
    isRateLimitMsg "timed out" = false ∧
    (extractJson outcomesTimeout).1 = [] ∧
    (extractJson outcomesTimeout).2.1 = 1 ∧
    (extractJson outcomesTimeout).2.2 = [] ∧
    (extractJson outcomesRateThenOk).2.1 ≤ 3 := by
  have h1 := (extract_json_retry_policy outcomesTimeout).2.2.2.2
    "timed out" rfl (by decide)
  exact ⟨by decide, h1.1, h1.2.1, h1.2.2,
    (extract_json_retry_policy outcomesRateThenOk).1⟩
